import Mathlib

/-!
Shallow embedding of the hddled_tmj33 Linux kernel module
(src/hddled_tmj33.c) and proofs of the specification claims.

Machine integers are modelled as `Nat` with explicit reduction modulo
`2^32` where the C code performs 32-bit unsigned arithmetic.  Device
memory is a function from (32-bit) addresses to register words; each
`ioremap`-ed register is identified with its physical address.  The
parsed write payload is modelled as `Int` (the C `int` result of
`kstrtoint`), with its two's-complement low bits extracted explicitly.
-/

set_option maxHeartbeats 1000000

/-- Word size of the 32-bit unsigned arithmetic used throughout the module. -/
def W32 : Nat := 4294967296

/-- PCI configuration data port, `#define PCI_CFG_DATA 0xcfc`. -/
def PCI_CFG_DATA : Nat := 0xcfc

/-- PCI configuration control port, `#define PCI_CFG_CTRL 0xcf8`. -/
def PCI_CFG_CTRL : Nat := 0xcf8

/-- Model of `read_base` from the C source.  The function drives I/O ports,
so it is modelled as a function of the 8-bit `offset` argument and of the
32-bit value `inlValue` that the subsequent `inl(PCI_CFG_DATA)` returns.
The first component of the result is the configuration word the function
writes to `PCI_CFG_CTRL` with `outl`; the second component is the returned
base address.  The C code uses `fun = 0`, `bus = 0`, `dev = 0x0d`.
The function is total: every port response yields a base address. -/
def read_base (offset : Nat) (inlValue : Nat) : Nat × Nat :=
  let fn : Nat := 0
  let bus : Nat := 0
  let dev : Nat := 0x0d
  let ctrl : Nat :=
    0x80000000 ||| (bus <<< 16) ||| (dev <<< 11) ||| (fn <<< 8) ||| (offset % 256)
  let val : Nat := inlValue
  (ctrl, if val = 0xffffffff then 0xD0000000 else val &&& 0xfffff000)

/-- Model of `struct hddled`: the pair of ioremapped register addresses
for one LED (green and red GPIO registers). -/
structure hddled where
  green : Nat
  red : Nat
deriving DecidableEq

/-- Model of `create_hddled(addr)`: `green = ioremap(addr, 1)`,
`red = ioremap(addr + 0x28, 1)`.  In the memory model an ioremapped
register is identified with its physical address; `addr` is an
`unsigned int` parameter, and `addr + 0x28` is 32-bit addition. -/
def create_hddled (addr : Nat) : hddled :=
  { green := addr % W32, red := (addr + 0x28) % W32 }

/-- Register pair of the LED with array index `i` (minor number `i`,
device node `/dev/hddled(i+1)`), as built by the `hddled_init` loop
`for (i = 0, offset = 0xC505B8; i < 5; ++i, offset += 0x8)
  hddleds[i] = create_hddled(base + offset);`. -/
def ledOf (base i : Nat) : hddled :=
  create_hddled ((base + (0xC505B8 + 8 * i)) % W32)

/-- The complete register table `hddleds[0..4]` built by `hddled_init`. -/
def hddleds_list (base : Nat) : List hddled :=
  (List.range 5).map (ledOf base)

/-- Device memory: a map from 32-bit register addresses to register words. -/
def Mem : Type := Nat → Nat

/-- Pointwise memory update (one 32-bit store). -/
def mupd (m : Mem) (a v : Nat) : Mem := fun x => if x = a then v else m x

/-- Turn-off write pair executed by the `hddled_init` loop body:
`*hddleds[i]->green |= 0x1; *hddleds[i]->red &= 0xfffffffe;`. -/
def off_write (led : hddled) (m : Mem) : Mem :=
  let m1 := mupd m led.green (m led.green ||| 0x1)
  mupd m1 led.red (m1 led.red &&& 0xfffffffe)

/-- Effect on device memory of the forced-OFF loop in `hddled_init`
(the loop body also creates the iomaps; see `hddleds_list`). -/
def init_off (base : Nat) (m : Mem) : Mem :=
  (List.range 5).foldl (fun mm i => off_write (ledOf base i) mm) m

/-- Error codes returned by `kstrtoint` that this module can propagate. -/
inductive KErr where
  | EINVAL
  | ERANGE
deriving DecidableEq

/-- Byte-level `isdigit` (payloads are byte strings; digits are 0x30..0x39). -/
def isdigit (c : Nat) : Bool := 48 ≤ c && c ≤ 57

/-- Value of a base-10 digit string, accumulated as in `_parse_integer`. -/
def digitsToNat (ds : List Nat) : Nat :=
  ds.foldl (fun acc c => acc * 10 + (c - 48)) 0

/-- Model of the kernel `_kstrtoull(s, 10, &res)` on a byte string:
an optional leading plus sign (byte 43), then a maximal nonempty run of
decimal digits (empty run is `EINVAL`, accumulated value overflowing
64 bits is `ERANGE`), then optionally a single newline (byte 10), then
end of string (anything else is `EINVAL`). -/
def kstrtoull_model (l : List Nat) : Except KErr Nat :=
  let l1 := match l with
    | 43 :: r => r
    | _ => l
  let ds := l1.takeWhile isdigit
  let rest := l1.dropWhile isdigit
  if ds.isEmpty then .error .EINVAL
  else if 2 ^ 64 ≤ digitsToNat ds then .error .ERANGE
  else
    let rest2 := match rest with
      | 10 :: r => r
      | _ => rest
    if rest2.isEmpty then .ok (digitsToNat ds) else .error .EINVAL

/-- Lower bound of the C `int` range. -/
def int_min : Int := -2147483648

/-- Upper bound of the C `int` range. -/
def int_max : Int := 2147483647

/-- Model of `kstrtoint(s, 10, &res)`: a leading minus sign (byte 45)
negates the unsigned parse of the remainder (`kstrtoll` rejects
magnitudes above `2^63`), a non-negative result must fit in a signed
64-bit value, and finally the value must fit in the C `int` range,
otherwise `ERANGE`. -/
def kstrtoint_model (l : List Nat) : Except KErr Int :=
  match l with
  | 45 :: r =>
    match kstrtoull_model r with
    | .error e => .error e
    | .ok v =>
      if 2 ^ 63 < v then .error .ERANGE
      else
        let x : Int := -(v : Int)
        if int_min ≤ x ∧ x ≤ int_max then .ok x else .error .ERANGE
  | _ =>
    match kstrtoull_model l with
    | .error e => .error e
    | .ok v =>
      if 2 ^ 63 ≤ v then .error .ERANGE
      else
        let x : Int := (v : Int)
        if int_min ≤ x ∧ x ≤ int_max then .ok x else .error .ERANGE

/-- Bit `k` of the 32-bit two's-complement representation of the C `int`
value `v`; `ibit v 0` models `val & 0x1` and `ibit v 1` models
`(val >> 1) & 0x1` from `dev_write`. -/
def ibit (v : Int) (k : Nat) : Bool :=
  (((v % (W32 : Int)).toNat >>> k) &&& 1) == 1

/-- Register mutation performed by `dev_write` once parsing succeeded:
green bit is driven active-low (`&= 0xfffffffe` to turn on, `|= 0x1` to
turn off), red bit active-high (`|= 0x1` to turn on, `&= 0xfffffffe`
to turn off).  Both are read-modify-write stores. -/
def led_write (led : hddled) (val : Int) (m : Mem) : Mem :=
  let m1 :=
    if ibit val 0 then mupd m led.green (m led.green &&& 0xfffffffe)
    else mupd m led.green (m led.green ||| 0x1)
  if ibit val 1 then mupd m1 led.red (m1 led.red ||| 0x1)
  else mupd m1 led.red (m1 led.red &&& 0xfffffffe)

/-- State decode performed by `dev_read`:
`ret = ((*led->green & 0x1) ^ 0x1) | ((*led->red & 0x1) << 1)`. -/
def led_read (led : hddled) (m : Mem) : Nat :=
  ((m led.green &&& 0x1) ^^^ 0x1) ||| ((m led.red &&& 0x1) <<< 1)

/-- Decimal rendering of a non-negative value as a byte string,
modelling `sprintf(out, "%d", ret)` for `ret >= 0`. -/
def sprintf_u (n : Nat) : List Nat :=
  if n < 10 then [48 + n]
  else sprintf_u (n / 10) ++ [48 + n % 10]
termination_by n
decreasing_by
  simp_wf
  omega

/-- Session flag allocated by `dev_open`: `pd->read_done = false`. -/
def dev_open : Bool := false

/-- Model of `dev_read`: given the session flag `read_done`, return the
updated flag and the bytes delivered to the caller.  A served session
returns zero bytes without accessing any register; otherwise the state
is decoded, rendered in decimal and the session is marked served
(`copy_to_user` is assumed to succeed). -/
def dev_read (led : hddled) (m : Mem) (read_done : Bool) : Bool × List Nat :=
  if read_done then (read_done, [])
  else
    let ret := led_read led m
    (true, sprintf_u ret)

/-- Model of `dev_write` for minor number `i`: parse the payload with
`kstrtoint`; on failure return the error with memory untouched, on
success perform the two register writes and return the payload length. -/
def dev_write (base i : Nat) (buf : List Nat) (m : Mem) : Mem × Except KErr Nat :=
  match kstrtoint_model buf with
  | .error e => (m, .error e)
  | .ok val => (led_write (ledOf base i) val m, .ok buf.length)

/-- Model of `ioremap(addr, 1)` with an explicit failure oracle:
a failed mapping returns the null pointer (0), a successful one is
identified with the physical address. -/
def ioremap (fails : Nat → Bool) (addr : Nat) : Nat :=
  if fails addr then 0 else addr

/-- Model of `create_hddled` with the fallible `ioremap`: the C function
stores both results without any NULL check. -/
def create_hddled_rm (fails : Nat → Bool) (addr : Nat) : hddled :=
  { green := ioremap fails (addr % W32), red := ioremap fails ((addr + 0x28) % W32) }

/-- Model of the iomap-construction section of `hddled_init` under the
fallible `ioremap`: the loop calls `create_hddled` five times, contains
no failure check and no `iounmap` call, and the function falls through
to `return 0`.  Result components: the register table that was built,
the list of addresses unmapped before returning (the loop body and the
fall-through path contain no `iounmap`, so it is empty), and the
return value of `hddled_init`. -/
def hddled_init_rm (fails : Nat → Bool) (base : Nat) : List hddled × List Nat × Int :=
  ((List.range 5).map (fun i => create_hddled_rm fails ((base + (0xC505B8 + 8 * i)) % W32)),
   [], 0)

/-- Forced-OFF loop of `hddled_init` under the fallible `ioremap`:
the stores dereference whatever pointers `create_hddled` stored,
including a null pointer from a failed mapping. -/
def init_off_rm (fails : Nat → Bool) (base : Nat) (m : Mem) : Mem :=
  (List.range 5).foldl
    (fun mm i => off_write (create_hddled_rm fails ((base + (0xC505B8 + 8 * i)) % W32)) mm) m

/-! Helper lemmas about memory updates and the single-bit register writes. -/

/-- Convenient all-zero device memory used for concrete instances. -/
def mem0 : Mem := fun _ => 0

theorem mupd_self (m : Mem) (a v : Nat) : mupd m a v a = v := by
  simp [mupd]

theorem mupd_other (m : Mem) (a v x : Nat) (h : x ≠ a) : mupd m a v x = m x := by
  simp [mupd, h]

theorem or1_and1 (x : Nat) : (x ||| 1) &&& 1 = 1 := by
  have h : (x ||| 1).testBit 0 = true := by simp
  simp only [Nat.testBit_zero, decide_eq_true_eq] at h
  rw [Nat.and_one_is_mod, h]

theorem andfe_and1 (x : Nat) : (x &&& 0xfffffffe) &&& 1 = 0 := by
  rw [Nat.and_assoc]
  norm_num

theorem or1_testBit (x k : Nat) (hk : 1 ≤ k) : (x ||| 1).testBit k = x.testBit k := by
  rw [Nat.testBit_or]
  have h1 : (1 : Nat).testBit k = false := by
    have h0 : (1 : Nat) = 2 ^ 0 := by norm_num
    rw [h0, Nat.testBit_two_pow]
    simp
    omega
  rw [h1]
  simp

theorem andfe_testBit (x k : Nat) (hk1 : 1 ≤ k) (hk2 : k ≤ 31) :
    (x &&& 0xfffffffe).testBit k = x.testBit k := by
  rw [Nat.testBit_and]
  have h1 : (0xfffffffe : Nat).testBit k = true := by
    interval_cases k <;> decide
  rw [h1]
  simp

theorem or1_mod2 (x : Nat) : (x ||| 1) % 2 = 1 := by
  rw [← Nat.and_one_is_mod]
  exact or1_and1 x

theorem andfe_mod2 (x : Nat) : (x &&& 0xfffffffe) % 2 = 0 := by
  rw [← Nat.and_one_is_mod]
  exact andfe_and1 x

theorem ledOf_green (base i : Nat) :
    (ledOf base i).green = (base + (0xC505B8 + 8 * i)) % W32 := by
  simp only [ledOf, create_hddled, W32]
  omega

theorem ledOf_red (base i : Nat) :
    (ledOf base i).red = (base + (0xC505B8 + 8 * i) + 0x28) % W32 := by
  simp only [ledOf, create_hddled, W32]
  omega

/-- Distinctness of the register pairs of two different array indices:
no register of LED `i` aliases a register of LED `j`. -/
theorem ledOf_addr_ne (base i j : Nat) (hi : i < 5) (hj : j < 5) (hij : i ≠ j) :
    (ledOf base i).green ≠ (ledOf base j).green ∧
    (ledOf base i).green ≠ (ledOf base j).red ∧
    (ledOf base i).red ≠ (ledOf base j).green ∧
    (ledOf base i).red ≠ (ledOf base j).red := by
  simp only [ledOf_green, ledOf_red, W32]
  refine ⟨?_, ?_, ?_, ?_⟩ <;> omega

/-- The green and red registers of one LED never alias. -/
theorem ledOf_green_ne_red (base i : Nat) : (ledOf base i).green ≠ (ledOf base i).red := by
  simp only [ledOf_green, ledOf_red, W32]
  omega

theorem off_write_frame (led : hddled) (m : Mem) (x : Nat)
    (h1 : x ≠ led.green) (h2 : x ≠ led.red) : off_write led m x = m x := by
  simp [off_write, mupd, h1, h2]

theorem led_write_frame (led : hddled) (val : Int) (m : Mem) (x : Nat)
    (h1 : x ≠ led.green) (h2 : x ≠ led.red) : led_write led val m x = m x := by
  unfold led_write
  by_cases hb0 : ibit val 0 <;> by_cases hb1 : ibit val 1 <;>
    simp [hb0, hb1, mupd, h1, h2]

/-- Reading an LED after a write to the same LED yields exactly the two
payload bits: green from bit 0 (stored active-low, decoded back through
the XOR), red from bit 1 (stored and decoded active-high). -/
theorem led_read_write_self (led : hddled) (hgr : led.green ≠ led.red) (val : Int) (m : Mem) :
    led_read led (led_write led val m) =
      (if ibit val 0 then 1 else 0) + (if ibit val 1 then 2 else 0) := by
  unfold led_read led_write
  by_cases hb0 : ibit val 0 <;> by_cases hb1 : ibit val 1 <;>
    simp [hb0, hb1, mupd, hgr, Ne.symm hgr, or1_and1, andfe_and1, or1_mod2, andfe_mod2]

theorem led_read_off_other (ledA ledB : hddled) (m : Mem)
    (h1 : ledB.green ≠ ledA.green) (h2 : ledB.green ≠ ledA.red)
    (h3 : ledB.red ≠ ledA.green) (h4 : ledB.red ≠ ledA.red) :
    led_read ledB (off_write ledA m) = led_read ledB m := by
  unfold led_read
  rw [off_write_frame ledA m ledB.green h1 h2, off_write_frame ledA m ledB.red h3 h4]

theorem led_read_off_write_ne (base i j : Nat) (hi : i < 5) (hj : j < 5) (hij : i ≠ j)
    (m : Mem) :
    led_read (ledOf base i) (off_write (ledOf base j) m) = led_read (ledOf base i) m := by
  obtain ⟨h1, h2, h3, h4⟩ := ledOf_addr_ne base i j hi hj hij
  exact led_read_off_other _ _ m h1 h2 h3 h4

/-- The forced-OFF write pair leaves the written LED reading OFF. -/
theorem led_read_off_self (led : hddled) (m : Mem) (hgr : led.green ≠ led.red) :
    led_read led (off_write led m) = 0 := by
  unfold led_read off_write
  simp [mupd, hgr, Ne.symm hgr, or1_and1, andfe_and1, or1_mod2, andfe_mod2]

theorem led_read_lt_four (led : hddled) (m : Mem) : led_read led m < 4 := by
  unfold led_read
  have h1 : m led.green &&& 0x1 ≤ 1 := Nat.and_le_right
  have h2 : m led.red &&& 0x1 ≤ 1 := Nat.and_le_right
  rcases Nat.le_one_iff_eq_zero_or_eq_one.mp h1 with h | h <;>
    rcases Nat.le_one_iff_eq_zero_or_eq_one.mp h2 with g | g <;>
      rw [h, g] <;> decide

theorem sprintf_u_single (n : Nat) (h : n < 10) : sprintf_u n = [48 + n] := by
  rw [sprintf_u]
  simp [h]

/-- Sum of the two decoded payload bits equals the low two bits of the
two's-complement value of the payload. -/
theorem ibit_sum_eq (v : Int) :
    (if ibit v 0 then 1 else 0) + (if ibit v 1 then 2 else 0) = (v % 4).toNat := by
  have h4 : (v % 4).toNat = (v % (W32 : Int)).toNat % 4 := by
    simp only [W32]
    omega
  rw [h4]
  unfold ibit
  rw [Nat.shiftRight_zero, Nat.shiftRight_one]
  set w : Nat := (v % (W32 : Int)).toNat with hw
  simp only [Nat.and_one_is_mod, beq_iff_eq]
  by_cases hb0 : w % 2 = 1 <;> by_cases hb1 : w / 2 % 2 = 1 <;> simp [hb0, hb1] <;> omega

theorem mupd_or1_testBit (m : Mem) (b a k : Nat) (hk : 1 ≤ k) :
    ((mupd m b (m b ||| 0x1)) a).testBit k = (m a).testBit k := by
  by_cases h : a = b
  · subst h
    rw [mupd_self]
    exact or1_testBit _ _ hk
  · rw [mupd_other _ _ _ _ h]

theorem mupd_andfe_testBit (m : Mem) (b a k : Nat) (hk1 : 1 ≤ k) (hk2 : k ≤ 31) :
    ((mupd m b (m b &&& 0xfffffffe)) a).testBit k = (m a).testBit k := by
  by_cases h : a = b
  · subst h
    rw [mupd_self]
    exact andfe_testBit _ _ hk1 hk2
  · rw [mupd_other _ _ _ _ h]

/-- Each `dev_write` register store leaves bits 1..31 of every word intact. -/
theorem led_write_testBit (led : hddled) (val : Int) (m : Mem) (a k : Nat)
    (hk1 : 1 ≤ k) (hk2 : k ≤ 31) :
    ((led_write led val m) a).testBit k = (m a).testBit k := by
  unfold led_write
  by_cases hb0 : ibit val 0 <;> by_cases hb1 : ibit val 1 <;> simp only [hb0, hb1, if_true, if_false, Bool.false_eq_true, ite_false, ite_true]
  · rw [mupd_or1_testBit _ _ _ _ hk1, mupd_andfe_testBit _ _ _ _ hk1 hk2]
  · rw [mupd_andfe_testBit _ _ _ _ hk1 hk2, mupd_andfe_testBit _ _ _ _ hk1 hk2]
  · rw [mupd_or1_testBit _ _ _ _ hk1, mupd_or1_testBit _ _ _ _ hk1]
  · rw [mupd_andfe_testBit _ _ _ _ hk1 hk2, mupd_or1_testBit _ _ _ _ hk1]

/-- Each forced-OFF register store leaves bits 1..31 of every word intact. -/
theorem off_write_testBit (led : hddled) (m : Mem) (a k : Nat)
    (hk1 : 1 ≤ k) (hk2 : k ≤ 31) :
    ((off_write led m) a).testBit k = (m a).testBit k := by
  unfold off_write
  rw [mupd_andfe_testBit _ _ _ _ hk1 hk2, mupd_or1_testBit _ _ _ _ hk1]

theorem foldl_off_testBit (base : Nat) (l : List Nat) (m : Mem) (a k : Nat)
    (hk1 : 1 ≤ k) (hk2 : k ≤ 31) :
    ((l.foldl (fun mm i => off_write (ledOf base i) mm) m) a).testBit k = (m a).testBit k := by
  induction l generalizing m with
  | nil => rfl
  | cons x xs ih =>
    rw [List.foldl_cons, ih, off_write_testBit _ _ _ _ hk1 hk2]

/-! Claim theorems. -/

/-- C1: LED isolation.  Writing any parsed value to LED `i` leaves the
state read back from any other LED `j` unchanged, and the register pairs
of distinct LEDs are pairwise disjoint: no green or red register of one
LED aliases any register of another. -/
theorem C1_led_isolation (base i j : Nat) (val : Int) (m : Mem)
    (hi : i < 5) (hj : j < 5) (hij : i ≠ j) :
    led_read (ledOf base j) (led_write (ledOf base i) val m) = led_read (ledOf base j) m ∧
    (ledOf base i).green ≠ (ledOf base j).green ∧
    (ledOf base i).green ≠ (ledOf base j).red ∧
    (ledOf base i).red ≠ (ledOf base j).green ∧
    (ledOf base i).red ≠ (ledOf base j).red := by
  obtain ⟨h1, h2, h3, h4⟩ := ledOf_addr_ne base i j hi hj hij
  refine ⟨?_, h1, h2, h3, h4⟩
  unfold led_read
  rw [led_write_frame (ledOf base i) val m (ledOf base j).green (Ne.symm h1) (Ne.symm h3),
    led_write_frame (ledOf base i) val m (ledOf base j).red (Ne.symm h2) (Ne.symm h4)]

theorem C1_led_isolation_witness :
    (0 : Nat) < 5 ∧ (1 : Nat) < 5 ∧ (0 : Nat) ≠ 1 ∧
    (led_read (ledOf 0xD0000000 1) (led_write (ledOf 0xD0000000 0) 3 mem0) =
        led_read (ledOf 0xD0000000 1) mem0 ∧
      (ledOf 0xD0000000 0).green ≠ (ledOf 0xD0000000 1).green ∧
      (ledOf 0xD0000000 0).green ≠ (ledOf 0xD0000000 1).red ∧
      (ledOf 0xD0000000 0).red ≠ (ledOf 0xD0000000 1).green ∧
      (ledOf 0xD0000000 0).red ≠ (ledOf 0xD0000000 1).red) :=
  ⟨by decide, by decide, by decide,
    C1_led_isolation 0xD0000000 0 1 3 mem0 (by decide) (by decide) (by decide)⟩

/-- C2: set/get round-trip.  For every state `s` in {OFF, GREEN, RED,
BOTH}, writing `s` to an LED and decoding its registers afterwards
returns `s`; the green bit is stored active-low, the red bit
active-high, and the decode inverts the same conventions. -/
theorem C2_set_get_roundtrip (base i : Nat) (m : Mem) (s : Nat) (hs : s < 4) :
    led_read (ledOf base i) (led_write (ledOf base i) (s : Int) m) = s := by
  rw [led_read_write_self (ledOf base i) (ledOf_green_ne_red base i) (s : Int) m]
  interval_cases s <;> decide

theorem C2_set_get_roundtrip_witness :
    (2 : Nat) < 4 ∧
    led_read (ledOf 0xD0000000 0) (led_write (ledOf 0xD0000000 0) ((2 : Nat) : Int) mem0) = 2 :=
  ⟨by decide, C2_set_get_roundtrip 0xD0000000 0 mem0 2 (by decide)⟩

/-- C3: AddressResolver behaviour.  For an 8-bit register offset,
`read_base` writes the configuration word
`0x80000000 | (bus << 16) | (device << 11) | (function << 8) | offset`
(with bus 0, device 0x0d, function 0) to the configuration-address
port, and returns the fallback `0xD0000000` when the data port reads
back the all-ones sentinel, otherwise the read value with its low
12 bits masked off.  The model is a total function: `read_base` has
no failure outcome. -/
theorem C3_read_base (offset inlValue : Nat) (hoff : offset < 256) :
    (read_base offset inlValue).1 =
      (0x80000000 ||| (0 <<< 16) ||| (0x0d <<< 11) ||| (0 <<< 8) ||| offset) ∧
    (inlValue = 0xffffffff → (read_base offset inlValue).2 = 0xD0000000) ∧
    (inlValue ≠ 0xffffffff → (read_base offset inlValue).2 = inlValue &&& 0xfffff000) := by
  unfold read_base
  refine ⟨?_, ?_, ?_⟩
  · simp [Nat.mod_eq_of_lt hoff]
  · intro h
    simp [h]
  · intro h
    simp [h]

theorem C3_read_base_witness :
    (0x10 : Nat) < 256 ∧
    ((read_base 0x10 0x12345678).1 =
        (0x80000000 ||| (0 <<< 16) ||| (0x0d <<< 11) ||| (0 <<< 8) ||| 0x10) ∧
      ((0x12345678 : Nat) = 0xffffffff → (read_base 0x10 0x12345678).2 = 0xD0000000) ∧
      ((0x12345678 : Nat) ≠ 0xffffffff →
        (read_base 0x10 0x12345678).2 = 0x12345678 &&& 0xfffff000)) :=
  ⟨by decide, C3_read_base 0x10 0x12345678 (by decide)⟩

/-- C4: register address table.  Registry construction creates exactly
five LED handles; when the address arithmetic does not wrap the 32-bit
word (the resolved base always leaves room for the fixed offsets on
real hardware), the green register of index `i` sits at
`base + 0xC505B8 + i * 0x8` and the red register at `green + 0x28`. -/
theorem C4_register_table (base : Nat) (hbase : base + 0xC50600 < W32) :
    (hddleds_list base).length = 5 ∧
    hddleds_list base =
      [ledOf base 0, ledOf base 1, ledOf base 2, ledOf base 3, ledOf base 4] ∧
    (∀ i, i < 5 →
      (ledOf base i).green = base + 0xC505B8 + i * 0x8 ∧
      (ledOf base i).red = (ledOf base i).green + 0x28) := by
  refine ⟨rfl, rfl, ?_⟩
  intro i hi
  rw [ledOf_green, ledOf_red]
  simp only [W32] at hbase ⊢
  omega

theorem C4_register_table_witness :
    (0xD0000000 : Nat) + 0xC50600 < W32 ∧
    ((hddleds_list 0xD0000000).length = 5 ∧
      hddleds_list 0xD0000000 =
        [ledOf 0xD0000000 0, ledOf 0xD0000000 1, ledOf 0xD0000000 2,
          ledOf 0xD0000000 3, ledOf 0xD0000000 4] ∧
      (∀ i, i < 5 →
        (ledOf 0xD0000000 i).green = 0xD0000000 + 0xC505B8 + i * 0x8 ∧
        (ledOf 0xD0000000 i).red = (ledOf 0xD0000000 i).green + 0x28)) :=
  ⟨by decide, C4_register_table 0xD0000000 (by decide)⟩

/-- C5: post-construction OFF invariant.  The forced-OFF loop of
`hddled_init` is exactly one OFF write pair per LED (green bit set,
red bit cleared), and after it completes every LED decodes to OFF. -/
theorem C5_init_all_off (base : Nat) (m : Mem) (i : Nat) (hi : i < 5) :
    led_read (ledOf base i) (init_off base m) = 0 ∧
    init_off base m =
      off_write (ledOf base 4) (off_write (ledOf base 3) (off_write (ledOf base 2)
        (off_write (ledOf base 1) (off_write (ledOf base 0) m)))) := by
  have hexp : init_off base m =
      off_write (ledOf base 4) (off_write (ledOf base 3) (off_write (ledOf base 2)
        (off_write (ledOf base 1) (off_write (ledOf base 0) m)))) := rfl
  refine ⟨?_, hexp⟩
  rw [hexp]
  interval_cases i
  · rw [led_read_off_write_ne base 0 4 (by decide) (by decide) (by decide),
      led_read_off_write_ne base 0 3 (by decide) (by decide) (by decide),
      led_read_off_write_ne base 0 2 (by decide) (by decide) (by decide),
      led_read_off_write_ne base 0 1 (by decide) (by decide) (by decide),
      led_read_off_self (ledOf base 0) m (ledOf_green_ne_red base 0)]
  · rw [led_read_off_write_ne base 1 4 (by decide) (by decide) (by decide),
      led_read_off_write_ne base 1 3 (by decide) (by decide) (by decide),
      led_read_off_write_ne base 1 2 (by decide) (by decide) (by decide),
      led_read_off_self (ledOf base 1) _ (ledOf_green_ne_red base 1)]
  · rw [led_read_off_write_ne base 2 4 (by decide) (by decide) (by decide),
      led_read_off_write_ne base 2 3 (by decide) (by decide) (by decide),
      led_read_off_self (ledOf base 2) _ (ledOf_green_ne_red base 2)]
  · rw [led_read_off_write_ne base 3 4 (by decide) (by decide) (by decide),
      led_read_off_self (ledOf base 3) _ (ledOf_green_ne_red base 3)]
  · rw [led_read_off_self (ledOf base 4) _ (ledOf_green_ne_red base 4)]

theorem C5_init_all_off_witness :
    (2 : Nat) < 5 ∧
    (led_read (ledOf 0xD0000000 2) (init_off 0xD0000000 mem0) = 0 ∧
      init_off 0xD0000000 mem0 =
        off_write (ledOf 0xD0000000 4) (off_write (ledOf 0xD0000000 3)
          (off_write (ledOf 0xD0000000 2) (off_write (ledOf 0xD0000000 1)
            (off_write (ledOf 0xD0000000 0) mem0))))) :=
  ⟨by decide, C5_init_all_off 0xD0000000 mem0 2 (by decide)⟩

/-- C6: bit-write frame property.  Every individual register store
performed by the write path (`led_write`) and by the forced-OFF
construction writes (`off_write`, and the whole `init_off` loop)
preserves bits 1 through 31 of every addressable word, whatever its
initial value: only bit 0 of the target word is modified. -/
theorem C6_bit_write_frame (led : hddled) (val : Int) (base : Nat) (m : Mem) (a k : Nat)
    (hk1 : 1 ≤ k) (hk2 : k ≤ 31) :
    ((led_write led val m) a).testBit k = (m a).testBit k ∧
    ((off_write led m) a).testBit k = (m a).testBit k ∧
    ((init_off base m) a).testBit k = (m a).testBit k := by
  refine ⟨led_write_testBit led val m a k hk1 hk2, off_write_testBit led m a k hk1 hk2, ?_⟩
  unfold init_off
  exact foldl_off_testBit base (List.range 5) m a k hk1 hk2

theorem C6_bit_write_frame_witness :
    (1 : Nat) ≤ 5 ∧ (5 : Nat) ≤ 31 ∧
    (((led_write (hddled.mk 8 16) 1 mem0) 8).testBit 5 = (mem0 8).testBit 5 ∧
      ((off_write (hddled.mk 8 16) mem0) 8).testBit 5 = (mem0 8).testBit 5 ∧
      ((init_off 0 mem0) 8).testBit 5 = (mem0 8).testBit 5) :=
  ⟨by decide, by decide,
    C6_bit_write_frame (hddled.mk 8 16) 1 0 mem0 8 5 (by decide) (by decide)⟩

/-- C7: write error atomicity.  Whenever `kstrtoint` rejects the
payload, `dev_write` returns that error with the device memory exactly
as before: no register of any LED is touched before the parse
succeeds.  A malformed (non-numeric) payload is rejected with
`EINVAL`, the InvalidInput error. -/
theorem C7_invalid_write_atomic (base i : Nat) (buf : List Nat) (m : Mem) (e : KErr)
    (h : kstrtoint_model buf = .error e) :
    dev_write base i buf m = (m, .error e) := by
  unfold dev_write
  rw [h]

theorem C7_invalid_write_atomic_witness :
    kstrtoint_model [97, 98, 99] = Except.error KErr.EINVAL ∧
    dev_write 0xD0000000 0 [97, 98, 99] mem0 = (mem0, Except.error KErr.EINVAL) := by
  have h : kstrtoint_model [97, 98, 99] = Except.error KErr.EINVAL := by rfl
  exact ⟨h, C7_invalid_write_atomic 0xD0000000 0 [97, 98, 99] mem0 KErr.EINVAL h⟩

/-- C8: out-of-range write interpretation.  Every successfully parsed
integer `v` makes the write succeed (returning the payload length), and
the resulting LED state is exactly the low two bits of the
two's-complement value of `v` (bit 0 drives green, bit 1 drives red);
higher bits are ignored, not rejected. -/
theorem C8_out_of_range_write (base i : Nat) (buf : List Nat) (m : Mem) (v : Int)
    (h : kstrtoint_model buf = .ok v) :
    (dev_write base i buf m).2 = .ok buf.length ∧
    (dev_write base i buf m).1 = led_write (ledOf base i) v m ∧
    led_read (ledOf base i) (dev_write base i buf m).1 = (v % 4).toNat := by
  have hw : dev_write base i buf m = (led_write (ledOf base i) v m, .ok buf.length) := by
    unfold dev_write
    rw [h]
  refine ⟨by rw [hw], by rw [hw], ?_⟩
  rw [hw]
  show led_read (ledOf base i) (led_write (ledOf base i) v m) = (v % 4).toNat
  rw [led_read_write_self (ledOf base i) (ledOf_green_ne_red base i) v m, ibit_sum_eq]

theorem C8_out_of_range_write_witness :
    kstrtoint_model [55] = Except.ok 7 ∧
    (dev_write 0xD0000000 0 [55] mem0).2 = Except.ok 1 ∧
    led_read (ledOf 0xD0000000 0) (dev_write 0xD0000000 0 [55] mem0).1 = 3 := by
  have h : kstrtoint_model [55] = Except.ok 7 := by rfl
  have h2 := C8_out_of_range_write 0xD0000000 0 [55] mem0 7 h
  refine ⟨h, ?_, ?_⟩
  · simpa using h2.1
  · rw [h2.2.2]
    decide

/-- C9: one-shot read session.  A fresh session starts unserved
(`dev_open`); the first read returns exactly one decimal-digit byte
(the state, always below 4, rendered as byte `48 + state`) and marks
the session served; any read on a served session returns zero bytes,
independently of the device memory, until a new session is opened. -/
theorem C9_one_shot_read (led : hddled) (m : Mem) :
    dev_open = false ∧
    (dev_read led m dev_open).1 = true ∧
    (dev_read led m dev_open).2 = [48 + led_read led m] ∧
    led_read led m < 4 ∧
    dev_read led m true = (true, []) := by
  have h4 := led_read_lt_four led m
  refine ⟨rfl, rfl, ?_, h4, rfl⟩
  show sprintf_u (led_read led m) = [48 + led_read led m]
  exact sprintf_u_single _ (by omega)

/-- C10: evaluation of registry construction under a failing `ioremap`.
With a mapping failure at the green register of LED 0 (base
`0xD0000000`, failing address `0xD0C505B8`), `hddled_init` still
returns 0 (success) instead of a MapError, unmaps nothing (the regions
mapped for the other LEDs stay acquired, e.g. the green register of
LED 1 at `0xD0C505C0`), stores the null pointer as the LED 0 green
handle, and the subsequent forced-OFF loop dereferences that null
pointer (the store lands on address 0). -/
theorem C10_no_rollback_on_map_failure :
    (hddled_init_rm (fun a => a == 0xD0C505B8) 0xD0000000).2.2 = 0 ∧
    (hddled_init_rm (fun a => a == 0xD0C505B8) 0xD0000000).2.1 = [] ∧
    ((hddled_init_rm (fun a => a == 0xD0C505B8) 0xD0000000).1.getD 0 (hddled.mk 1 1)).green
      = 0 ∧
    ((hddled_init_rm (fun a => a == 0xD0C505B8) 0xD0000000).1.getD 1 (hddled.mk 0 0)).green
      = 0xD0C505C0 ∧
    (init_off_rm (fun a => a == 0xD0C505B8) 0xD0000000 mem0) 0 = 1 :=
  ⟨rfl, rfl, by decide, by decide, by rfl⟩
